import Mathlib

/-!
Verification development for the `standup-bot` repository (`src/main.go`),
a Telex.im chat agent.  The Go source is shallowly embedded below:

* pure helpers from the Go standard library (`strings.ToLower`,
  `strings.Contains`, `strings.HasPrefix`, `strings.Fields`,
  `strings.Join`) are modelled on `List Char`, character for character
  (Go operates on bytes/runes; for the ASCII inputs relevant here the two
  coincide);
* the process-wide mutable map `conversationHistory` becomes a functional
  store `String → Option ConversationContext`, threaded explicitly;
* `time.Now()` becomes an explicit `now : Nat` parameter;
* the two outbound HTTP calls (Groq completion, Telex relay) are modelled
  by their observable outcomes, passed in as parameters, and the handlers
  additionally record the prompts and messages they send so that theorems
  can speak about them;
* the float field `Confidence` is modelled as a rational number.
-/

namespace StandupBot

/-! ### String helpers (models of the Go standard library functions) -/

/-- Model of `strings.ToLower` (ASCII case folding on characters). -/
def toLowerGo (s : String) : String := ⟨s.data.map Char.toLower⟩

/-- `prefixCheck needle hay` is true when `needle` is an initial segment
of `hay`; helper for the `strings.Contains` / `strings.HasPrefix` models. -/
def prefixCheck : List Char → List Char → Bool
  | [], _ => true
  | _ :: _, [] => false
  | a :: as, b :: bs => a == b && prefixCheck as bs

/-- `infixCheck needle hay` is true when `needle` occurs contiguously
somewhere inside `hay`. -/
def infixCheck (needle : List Char) : List Char → Bool
  | [] => needle.isEmpty
  | c :: rest => prefixCheck needle (c :: rest) || infixCheck needle rest

/-- Model of Go `strings.Contains(s, sub)`. -/
def goContains (s sub : String) : Bool := infixCheck sub.data s.data

/-- Model of Go `strings.HasPrefix(s, pre)` (argument order: prefix first). -/
def goHasPrefix (pre s : String) : Bool := prefixCheck pre.data s.data

/-- Accumulator-based splitter behind `goFields`; `cur` holds the current
word reversed. -/
def fieldsAux (cur : List Char) : List Char → List String
  | [] => if cur.isEmpty then [] else [⟨cur.reverse⟩]
  | c :: cs =>
    if c.isWhitespace then
      if cur.isEmpty then fieldsAux [] cs else ⟨cur.reverse⟩ :: fieldsAux [] cs
    else fieldsAux (c :: cur) cs

/-- Model of Go `strings.Fields`: split around runs of whitespace,
dropping empty fields. -/
def goFields (s : String) : List String := fieldsAux [] s.data

/-- Model of Go `strings.Join(elems, ", ")` as used in the prompt builder. -/
def joinComma : List String → String
  | [] => ""
  | [t] => t
  | t :: rest => t ++ ", " ++ joinComma rest

/-! ### Data model (`main.go` lines 18–70) -/

/-- `ConversationContext` struct (`main.go` lines 53–59); `Timestamp` is
modelled as a `Nat` clock value. -/
structure ConversationContext where
  userID : String
  lastMessage : String
  messageCount : Nat
  topics : List String
  timestamp : Nat
deriving DecidableEq, Repr

/-- The process-wide map `conversationHistory` (`main.go` line 62),
modelled functionally. -/
def Store : Type := String → Option ConversationContext

/-- The store at process start: no conversations. -/
def emptyStore : Store := fun _ => none

/-- The entity map built by `extractEntities`: Go uses
`map[string]string` whose only possible keys are `"mention"` and
`"hashtag"`, so it is modelled as two optional fields. -/
structure Entities where
  mention : Option String
  hashtag : Option String
deriving DecidableEq, Repr

/-- `AgentResponse` struct (`main.go` lines 46–51); `Confidence` as `ℚ`. -/
structure AgentResponse where
  reply : String
  intent : String
  entities : Entities
  confidence : ℚ
deriving DecidableEq, Repr

/-! ### Extractor (`main.go` lines 413–479) -/

/-- Helper `contains` (`main.go` lines 472–479). -/
def containsGo : List String → String → Bool
  | [], _ => false
  | s :: rest, item => if s = item then true else containsGo rest item

/-- `extractIntent` (`main.go` lines 413–430). -/
def extractIntent (message : String) : String :=
  let lower := toLowerGo message
  if goContains lower "help" || goContains lower "assist" then "help_request"
  else if goContains lower "?" then "question"
  else if goContains lower "thank" then "gratitude"
  else if goContains lower "hello" || goContains lower "hi" then "greeting"
  else "general"

/-- One iteration of the `for _, word := range words` loop of
`extractEntities` (`main.go` lines 438–445): both `if`s are checked, a
later match of a kind overwrites an earlier one. -/
def entityStep (e : Entities) (word : String) : Entities :=
  let e1 := if goHasPrefix "@" word then { e with mention := some word } else e
  if goHasPrefix "#" word then { e1 with hashtag := some word } else e1

/-- `extractEntities` (`main.go` lines 432–448). -/
def extractEntities (message : String) : Entities :=
  (goFields (toLowerGo message)).foldl entityStep ⟨none, none⟩

/-- The fixed keyword table of `extractTopics` (`main.go` lines 454–461),
in the source literal's order.  Go iterates the map in an unspecified
order; this embedding fixes the literal's insertion order (the properties
proved below that depend on order are stated relative to this table). -/
def keywordTable : List (String × String) :=
  [("code", "programming"), ("python", "programming"), ("go", "programming"),
   ("weather", "weather"), ("help", "support"), ("how", "tutorial")]

/-- `extractTopics` (`main.go` lines 450–470): appends the topic of every
keyword occurring in the lowercased message, with no deduplication inside
the call. -/
def extractTopics (message : String) : List String :=
  let lower := toLowerGo message
  keywordTable.foldl
    (fun topics kv => if goContains lower kv.1 then topics ++ [kv.2] else topics) []

/-! ### Conversation store update (`main.go` lines 389–411) -/

/-- The topic-accumulation loop of `updateConversationContext`
(`main.go` lines 404–410). -/
def addTopics (existing : List String) (new : List String) : List String :=
  new.foldl (fun acc topic => if containsGo acc topic then acc else acc ++ [topic])
    existing

/-- The context value `ctx` holds at the end of
`updateConversationContext` (`main.go` lines 389–410): the fetched (or
lazily created, `main.go` lines 391–398) context with `lastMessage` set,
`messageCount` incremented, the timestamp stamped, and the topics of the
new message folded in. -/
def updatedContext (store : Store) (now : Nat) (userID message : String) :
    ConversationContext :=
  let base : ConversationContext :=
    match store userID with
    | some c => c
    | none => { userID := userID, lastMessage := "", messageCount := 0,
                topics := [], timestamp := 0 }
  { base with
    lastMessage := message
    messageCount := base.messageCount + 1
    timestamp := now
    topics := addTopics base.topics (extractTopics message) }

/-- `updateConversationContext` (`main.go` lines 389–411): the Go code
mutates the map entry in place; the functional model maps `userID` to the
updated context and leaves every other key untouched. -/
def updateConversationContext (store : Store) (now : Nat) (userID message : String) :
    Store :=
  fun k => if k = userID then some (updatedContext store now userID message) else store k

/-! ### Prompt builder (`main.go` lines 276–289) -/

/-- The fixed system preamble of `buildContextPrompt`. -/
def basePrompt : String :=
  "You are a helpful AI assistant integrated with Telex.im messaging platform. "

/-- The fixed instruction plus the literal new message appended at the end
of `buildContextPrompt`. -/
def tailPrompt (message : String) : String :=
  "Respond naturally and helpfully to the following message:\n\n" ++ message

/-- `buildContextPrompt` (`main.go` lines 276–289). -/
def buildContextPrompt (ctx : Option ConversationContext) (message : String) : String :=
  let p :=
    match ctx with
    | some c =>
      if 0 < c.messageCount then
        let pa := basePrompt ++ ("This is message #" ++ toString c.messageCount
          ++ " in the conversation. ")
        if 0 < c.topics.length then
          pa ++ ("Previous topics discussed: " ++ joinComma c.topics ++ ". ")
        else pa
      else basePrompt
    | none => basePrompt
  p ++ tailPrompt message

/-! ### Completion client (`main.go` lines 291–350)

`callGroqAPI` builds a fixed request and performs an HTTP POST; the part
visible to the rest of the program is the outcome of that POST, modelled
by `GroqOutcome`: a transport-level failure (connection error, body-read
or JSON-unmarshal failure), or a parsed response with its status code and
the contents of the `choices` array. -/

/-- Observable outcome of the HTTP POST made by `callGroqAPI`. -/
inductive GroqOutcome where
  | netError (msg : String)
  | response (status : Nat) (choices : List String)
deriving DecidableEq, Repr

/-- The decision logic of `callGroqAPI` (`main.go` lines 317–349): any
transport failure is an error; a non-200 status is an error; an empty
`choices` array is an error; otherwise the first choice's content is
returned. -/
def callGroqAPI (outcome : GroqOutcome) : Except String String :=
  match outcome with
  | .netError e => .error e
  | .response status choices =>
    if status ≠ 200 then .error "groq API error"
    else
      match choices with
      | [] => .error "empty response from Groq"
      | c :: _ => .ok c

/-- `generateAIResponse` (`main.go` lines 251–274).  `groq` maps the
prompt to the outcome of the completion POST.  The first component of the
result records the prompt that was sent to the completion API. -/
def generateAIResponse (store : Store) (userID message : String)
    (groq : String → GroqOutcome) : String × Except String AgentResponse :=
  let ctx := store userID
  let contextPrompt := buildContextPrompt ctx message
  (contextPrompt,
    match callGroqAPI (groq contextPrompt) with
    | .error e => .error e
    | .ok reply =>
      .ok { reply := reply, intent := extractIntent message,
            entities := extractEntities message, confidence := 9 / 10 })

/-! ### HTTP handlers (`main.go` lines 135–249) -/

/-- Bodies of the JSON responses the handlers can produce:
`TelexResponse{Status, Message}` (`main.go` lines 40–43), a serialized
`AgentResponse`, or a `gin.H{"error": ...}` object. -/
inductive ResponseBody where
  | telex (status msg : String)
  | agent (r : AgentResponse)
  | errorBody (e : String)
deriving DecidableEq, Repr

/-- An HTTP response: status code and JSON body. -/
structure HTTPResponse where
  status : Nat
  body : ResponseBody
deriving DecidableEq, Repr

/-- `TelexMessage` struct (`main.go` lines 19–26); `from`/`to` are renamed
(`from` is reserved in Lean) and the timestamp is a `Nat`. -/
structure TelexMessage where
  id : String
  fromId : String
  toId : String
  content : String
  timestamp : Nat
  msgType : String
deriving DecidableEq, Repr

/-- `TelexUser` struct (`main.go` lines 34–38). -/
structure TelexUser where
  id : String
  username : String
  name : String
deriving DecidableEq, Repr

/-- `TelexWebhook` struct (`main.go` lines 28–32). -/
structure TelexWebhook where
  event : String
  message : TelexMessage
  user : TelexUser
deriving DecidableEq, Repr

/-- An inbound webhook request: its `Authorization` header and its body
(`none` models a body `ShouldBindJSON` fails to parse). -/
structure WebhookRequest where
  authHeader : String
  body : Option TelexWebhook
deriving Repr

/-- What a handler invocation produces: the store afterwards, the prompts
sent to the completion API, the messages successfully delivered through
`sendTelexMessage` (recipient, content), and the HTTP response. -/
structure HandlerResult where
  store : Store
  prompts : List String
  sent : List (String × String)
  response : HTTPResponse

/-- The fixed fallback `AgentResponse` substituted by
`handleIncomingMessage` when `generateAIResponse` fails (`main.go`
lines 188–191): only `Reply` and `Confidence` are set, the other fields
keep their zero values. -/
def fallbackReply : AgentResponse :=
  { reply := "I apologize, but I'm having trouble processing your message right now. Please try again."
    intent := ""
    entities := { mention := none, hashtag := none }
    confidence := 0 }

/-- `handleIncomingMessage` (`main.go` lines 174–211).  `send to content`
is the outcome of `sendTelexMessage to content`. -/
def handleIncomingMessage (agentID : String) (store : Store) (now : Nat)
    (msgFrom msgContent : String) (groq : String → GroqOutcome)
    (send : String → String → Except String Unit) : HandlerResult :=
  if msgFrom = agentID then
    { store := store, prompts := [], sent := []
      response := ⟨200, .telex "ignored" ""⟩ }
  else
    let store2 := updateConversationContext store now msgFrom msgContent
    let pr := generateAIResponse store2 msgFrom msgContent groq
    let agentReply :=
      match pr.2 with
      | .error _ => fallbackReply
      | .ok r => r
    match send msgFrom agentReply.reply with
    | .error _ =>
      { store := store2, prompts := [pr.1], sent := []
        response := ⟨500, .telex "error" "Failed to send response"⟩ }
    | .ok _ =>
      { store := store2, prompts := [pr.1], sent := [(msgFrom, agentReply.reply)]
        response := ⟨200, .telex "success" "Message processed"⟩ }

/-- `handleUserJoined` (`main.go` lines 213–227). -/
def handleUserJoined (store : Store) (user : TelexUser)
    (send : String → String → Except String Unit) : HandlerResult :=
  let welcomeMsg := "Welcome " ++ user.name
    ++ "! 👋 I'm an AI assistant here to help. Feel free to ask me anything!"
  match send user.id welcomeMsg with
  | .error _ =>
    { store := store, prompts := [], sent := []
      response := ⟨500, .telex "error" "Failed to send welcome message"⟩ }
  | .ok _ =>
    { store := store, prompts := [], sent := [(user.id, welcomeMsg)]
      response := ⟨200, .telex "success" ""⟩ }

/-- `handleDirectMessage` (`main.go` lines 229–249).  Gin's
`binding:"required"` rejects a request whose `userId` or `message` field
is absent or empty, producing a 400; that validation is modelled by the
emptiness test. -/
def handleDirectMessage (store : Store) (now : Nat) (userID message : String)
    (groq : String → GroqOutcome) : HandlerResult :=
  if userID = "" || message = "" then
    { store := store, prompts := [], sent := []
      response := ⟨400, .errorBody "binding error"⟩ }
  else
    let store2 := updateConversationContext store now userID message
    let pr := generateAIResponse store2 userID message groq
    match pr.2 with
    | .error e =>
      { store := store2, prompts := [pr.1], sent := []
        response := ⟨500, .errorBody e⟩ }
    | .ok r =>
      { store := store2, prompts := [pr.1], sent := []
        response := ⟨200, .agent r⟩ }

/-- `handleTelexWebhook` (`main.go` lines 135–172): bearer-token check,
body parse, then dispatch on the event tag. -/
def handleTelexWebhook (telexAPIKey agentID : String) (store : Store) (now : Nat)
    (req : WebhookRequest) (groq : String → GroqOutcome)
    (send : String → String → Except String Unit) : HandlerResult :=
  if req.authHeader ≠ "Bearer " ++ telexAPIKey then
    { store := store, prompts := [], sent := []
      response := ⟨401, .telex "error" "Unauthorized"⟩ }
  else
    match req.body with
    | none =>
      { store := store, prompts := [], sent := []
        response := ⟨400, .telex "error" "Invalid payload"⟩ }
    | some webhook =>
      if webhook.event = "message.received" || webhook.event = "message" then
        handleIncomingMessage agentID store now webhook.message.fromId
          webhook.message.content groq send
      else if webhook.event = "user.joined" then
        handleUserJoined store webhook.user send
      else if webhook.event = "user.typing" then
        { store := store, prompts := [], sent := []
          response := ⟨200, .telex "acknowledged" ""⟩ }
      else
        { store := store, prompts := [], sent := []
          response := ⟨200, .telex "acknowledged" ""⟩ }

/-! ### Spec-side definitions

These two definitions follow the specification's words rather than the
source; theorems below compare the source embedding against them. -/

/-- From the spec's words: the deduplicated union of a list of tags, in
first-seen order ("append each topic not already present, preserving
first-seen order"). -/
def firstSeenDedup (l : List String) : List String :=
  l.foldl (fun acc t => if t ∈ acc then acc else acc ++ [t]) []

/-- From the spec's words: the last element of the list satisfying `p`
("later tokens of the same kind overwrite earlier ones — only the last
mention/hashtag in a message survives"). -/
def lastMatching (p : String → Bool) : List String → Option String
  | [] => none
  | w :: ws =>
    match lastMatching p ws with
    | some r => some r
    | none => if p w then some w else none

/-- The conversation stores reachable by the program: the empty store the
process starts with, followed by any sequence of
`updateConversationContext` calls (the only operation that writes the
store). -/
inductive Reachable : Store → Prop where
  | empty : Reachable emptyStore
  | step (s : Store) (now : Nat) (u m : String) :
      Reachable s → Reachable (updateConversationContext s now u m)

/-! ### Supporting lemmas -/

theorem prefixCheck_self_append (y z : List Char) : prefixCheck y (y ++ z) = true := by
  induction y with
  | nil => rfl
  | cons a as ih => simp [prefixCheck, ih]

theorem infixCheck_of_prefixCheck (n hay : List Char) (h : prefixCheck n hay = true) :
    infixCheck n hay = true := by
  cases hay with
  | nil =>
    cases n with
    | nil => rfl
    | cons a as => simp [prefixCheck] at h
  | cons c rest => simp [infixCheck, h]

theorem infixCheck_append (x y z : List Char) : infixCheck y (x ++ y ++ z) = true := by
  induction x with
  | nil =>
    exact infixCheck_of_prefixCheck y (y ++ z) (prefixCheck_self_append y z)
  | cons c cs ih =>
    simp only [List.cons_append, infixCheck, Bool.or_eq_true]
    exact Or.inr (by simpa [List.append_assoc] using ih)

theorem goContains_of_data (s mid : String) (x y : List Char)
    (h : s.data = x ++ mid.data ++ y) : goContains s mid = true := by
  unfold goContains
  rw [h]
  exact infixCheck_append x mid.data y

theorem containsGo_eq (l : List String) (s : String) :
    containsGo l s = decide (s ∈ l) := by
  induction l with
  | nil => simp [containsGo]
  | cons a l ih =>
    by_cases h : a = s
    · simp [containsGo, h]
    · have hne : ¬ s = a := fun hs => h hs.symm
      simp [containsGo, if_neg h, ih, List.mem_cons, hne]

theorem addTopics_eq_foldl_mem (acc l : List String) :
    addTopics acc l
      = l.foldl (fun acc t => if t ∈ acc then acc else acc ++ [t]) acc := by
  unfold addTopics
  congr 1
  funext a t
  simp [containsGo_eq]

theorem addTopics_append (acc l1 l2 : List String) :
    addTopics acc (l1 ++ l2) = addTopics (addTopics acc l1) l2 := by
  unfold addTopics
  exact List.foldl_append _ _ l1 l2

theorem addTopics_nil_eq_firstSeenDedup (l : List String) :
    addTopics [] l = firstSeenDedup l := by
  rw [addTopics_eq_foldl_mem]
  rfl

theorem addTopics_cons (acc : List String) (x : String) (xs : List String) :
    addTopics acc (x :: xs)
      = addTopics (if containsGo acc x then acc else acc ++ [x]) xs := rfl

theorem mem_addTopics_of_mem_acc (t : String) (acc l : List String) (h : t ∈ acc) :
    t ∈ addTopics acc l := by
  induction l generalizing acc with
  | nil => exact h
  | cons x xs ih =>
    rw [addTopics_cons]
    by_cases hx : containsGo acc x = true
    · rw [if_pos hx]
      exact ih acc h
    · rw [if_neg (by simpa using hx)]
      exact ih (acc ++ [x]) (List.mem_append_left _ h)

theorem mem_addTopics_of_mem_new (t : String) (acc l : List String) (h : t ∈ l) :
    t ∈ addTopics acc l := by
  induction l generalizing acc with
  | nil => cases h
  | cons x xs ih =>
    rw [addTopics_cons]
    rcases List.mem_cons.mp h with rfl | hxs
    · by_cases hx : containsGo acc t = true
      · rw [if_pos hx]
        rw [containsGo_eq, decide_eq_true_eq] at hx
        exact mem_addTopics_of_mem_acc t acc xs hx
      · rw [if_neg (by simpa using hx)]
        exact mem_addTopics_of_mem_acc t _ xs
          (List.mem_append_right _ (List.mem_singleton.mpr rfl))
    · by_cases hx : containsGo acc x = true
      · rw [if_pos hx]
        exact ih acc hxs
      · rw [if_neg (by simpa using hx)]
        exact ih (acc ++ [x]) hxs

theorem addTopics_prefix_of (acc l : List String) : acc <+: addTopics acc l := by
  induction l generalizing acc with
  | nil => exact ⟨[], by simp [addTopics]⟩
  | cons x xs ih =>
    rw [addTopics_cons]
    by_cases hx : containsGo acc x = true
    · rw [if_pos hx]
      exact ih acc
    · rw [if_neg (by simpa using hx)]
      exact (show acc <+: acc ++ [x] from ⟨[x], rfl⟩).trans (ih (acc ++ [x]))

theorem nodup_addTopics (acc l : List String) (h : acc.Nodup) :
    (addTopics acc l).Nodup := by
  induction l generalizing acc with
  | nil => exact h
  | cons x xs ih =>
    rw [addTopics_cons]
    by_cases hx : containsGo acc x = true
    · rw [if_pos hx]
      exact ih acc h
    · rw [if_neg (by simpa using hx)]
      refine ih (acc ++ [x]) ?_
      have hmem : x ∉ acc := by
        rw [containsGo_eq] at hx
        simpa using hx
      simp [List.nodup_append, h, hmem]

theorem mention_entityStep (e : Entities) (w : String) :
    (entityStep e w).mention = if goHasPrefix "@" w then some w else e.mention := by
  unfold entityStep
  by_cases h1 : goHasPrefix "@" w = true <;>
    by_cases h2 : goHasPrefix "#" w = true <;>
      simp [h1, h2]

theorem hashtag_entityStep (e : Entities) (w : String) :
    (entityStep e w).hashtag = if goHasPrefix "#" w then some w else e.hashtag := by
  unfold entityStep
  by_cases h1 : goHasPrefix "@" w = true <;>
    by_cases h2 : goHasPrefix "#" w = true <;>
      simp [h1, h2]

theorem mention_foldl_entityStep (ws : List String) (e : Entities) :
    (ws.foldl entityStep e).mention
      = match lastMatching (goHasPrefix "@") ws with
        | some r => some r
        | none => e.mention := by
  induction ws generalizing e with
  | nil => rfl
  | cons w ws ih =>
    simp only [List.foldl_cons, lastMatching]
    rw [ih (entityStep e w)]
    cases hl : lastMatching (goHasPrefix "@") ws with
    | some r => rfl
    | none =>
      simp only [mention_entityStep]
      by_cases hw : goHasPrefix "@" w = true <;> simp [hw]

theorem hashtag_foldl_entityStep (ws : List String) (e : Entities) :
    (ws.foldl entityStep e).hashtag
      = match lastMatching (goHasPrefix "#") ws with
        | some r => some r
        | none => e.hashtag := by
  induction ws generalizing e with
  | nil => rfl
  | cons w ws ih =>
    simp only [List.foldl_cons, lastMatching]
    rw [ih (entityStep e w)]
    cases hl : lastMatching (goHasPrefix "#") ws with
    | some r => rfl
    | none =>
      simp only [hashtag_entityStep]
      by_cases hw : goHasPrefix "#" w = true <;> simp [hw]

theorem contains_turn_line (c : ConversationContext) (m : String)
    (h : 0 < c.messageCount) :
    goContains (buildContextPrompt (some c) m)
      ("This is message #" ++ toString c.messageCount ++ " in the conversation. ")
      = true := by
  by_cases ht : 0 < c.topics.length
  · refine goContains_of_data _ _ basePrompt.data
      ((("Previous topics discussed: " ++ joinComma c.topics ++ ". ")
        ++ tailPrompt m).data) ?_
    simp only [buildContextPrompt, if_pos h, if_pos ht]
    simp [String.data_append, List.append_assoc]
  · refine goContains_of_data _ _ basePrompt.data ((tailPrompt m).data) ?_
    simp only [buildContextPrompt, if_pos h, if_neg ht]
    simp [String.data_append, List.append_assoc]

theorem contains_topic_line (c : ConversationContext) (m : String)
    (h : 0 < c.messageCount) (ht : 0 < c.topics.length) :
    goContains (buildContextPrompt (some c) m)
      ("Previous topics discussed: " ++ joinComma c.topics ++ ". ") = true := by
  refine goContains_of_data _ _
    ((basePrompt ++ ("This is message #" ++ toString c.messageCount
      ++ " in the conversation. ")).data)
    ((tailPrompt m).data) ?_
  simp only [buildContextPrompt, if_pos h, if_pos ht]
  simp [String.data_append, List.append_assoc]

theorem update_apply_self (store : Store) (now : Nat) (u m : String) :
    updateConversationContext store now u m u
      = some (updatedContext store now u m) := if_pos rfl

theorem update_apply_ne (store : Store) (now : Nat) (u m v : String) (h : v ≠ u) :
    updateConversationContext store now u m v = store v := if_neg h

theorem updatedContext_messageCount (store : Store) (now : Nat) (u m : String) :
    (updatedContext store now u m).messageCount
      = (match store u with | some c0 => c0.messageCount | none => 0) + 1 := by
  cases hs : store u <;> simp [updatedContext, hs]

theorem updatedContext_topics (store : Store) (now : Nat) (u m : String) :
    (updatedContext store now u m).topics
      = addTopics (match store u with | some c0 => c0.topics | none => [])
          (extractTopics m) := by
  cases hs : store u <;> simp [updatedContext, hs]

theorem updatedContext_userID (store : Store) (now : Nat) (u m : String) :
    (updatedContext store now u m).userID
      = (match store u with | some c0 => c0.userID | none => u) := by
  cases hs : store u <;> simp [updatedContext, hs]

theorem handleDirectMessage_prompts (store : Store) (now : Nat) (u m : String)
    (groq : String → GroqOutcome) (hu : u ≠ "") (hm : m ≠ "") :
    (handleDirectMessage store now u m groq).prompts
      = [buildContextPrompt (some (updatedContext store now u m)) m] := by
  simp only [handleDirectMessage, generateAIResponse, hu, hm, decide_eq_true_eq,
    Bool.or_eq_true, decide_eq_false_iff_not, not_false_eq_true, update_apply_self]
  rw [if_neg (by simp)]
  cases callGroqAPI (groq (buildContextPrompt (some (updatedContext store now u m)) m))
    <;> rfl

theorem handleDirectMessage_groq_fail (store : Store) (now : Nat) (u m : String)
    (groq : String → GroqOutcome) (hu : u ≠ "") (hm : m ≠ "") (e : String)
    (hg : callGroqAPI (groq (buildContextPrompt (some (updatedContext store now u m)) m))
      = .error e) :
    (handleDirectMessage store now u m groq).response = ⟨500, .errorBody e⟩ := by
  simp only [handleDirectMessage, generateAIResponse, hu, hm, decide_eq_true_eq,
    Bool.or_eq_true, decide_eq_false_iff_not, not_false_eq_true, update_apply_self]
  rw [if_neg (by simp), hg]

theorem handleIncomingMessage_prompts (agentID : String) (store : Store) (now : Nat)
    (msgFrom msgContent : String) (groq : String → GroqOutcome)
    (send : String → String → Except String Unit) (hne : msgFrom ≠ agentID) :
    (handleIncomingMessage agentID store now msgFrom msgContent groq send).prompts
      = [buildContextPrompt (some (updatedContext store now msgFrom msgContent))
          msgContent] := by
  simp only [handleIncomingMessage, if_neg hne, generateAIResponse, update_apply_self]
  cases callGroqAPI
      (groq (buildContextPrompt (some (updatedContext store now msgFrom msgContent))
        msgContent)) with
  | error e =>
    cases send msgFrom fallbackReply.reply <;> rfl
  | ok r =>
    simp only []
    cases send msgFrom
        (AgentResponse.reply
          { reply := r, intent := extractIntent msgContent,
            entities := extractEntities msgContent, confidence := 9 / 10 })
      <;> rfl

theorem handleIncomingMessage_groq_fail (agentID : String) (store : Store) (now : Nat)
    (msgFrom msgContent : String) (groq : String → GroqOutcome)
    (hne : msgFrom ≠ agentID) (e : String)
    (hg : callGroqAPI
        (groq (buildContextPrompt (some (updatedContext store now msgFrom msgContent))
          msgContent)) = .error e) :
    handleIncomingMessage agentID store now msgFrom msgContent groq
        (fun _ _ => .ok ())
      = { store := updateConversationContext store now msgFrom msgContent
          prompts := [buildContextPrompt
            (some (updatedContext store now msgFrom msgContent)) msgContent]
          sent := [(msgFrom, fallbackReply.reply)]
          response := ⟨200, .telex "success" "Message processed"⟩ } := by
  simp only [handleIncomingMessage, if_neg hne, generateAIResponse, update_apply_self, hg]

theorem nodup_topics_of_reachable (s : Store) (hs : Reachable s) :
    ∀ u c, s u = some c → c.topics.Nodup := by
  induction hs with
  | empty =>
    intro u c hc
    simp [emptyStore] at hc
  | step s now u m hs ih =>
    intro v c hc
    by_cases hv : v = u
    · subst hv
      rw [update_apply_self] at hc
      obtain rfl := (Option.some.inj hc).symm
      rw [updatedContext_topics]
      apply nodup_addTopics
      cases hsu : s v with
      | none => simp
      | some c0 => simpa using ih v c0 hsu
    · rw [update_apply_ne s now u m v hv] at hc
      exact ih v c hc

/-! ### Claims -/

/-- C1 (counterexample): the claim says a completion failure is never
surfaced as an HTTP error to the inbound caller.  On the direct-message
POST, a completion call answering with status 500 makes the handler
return HTTP 500 with the error in the body — not the apology reply — so
the claim as stated is false. -/
theorem c1_counterexample :
    (handleDirectMessage emptyStore 0 "u1" "hello"
        (fun _ => GroqOutcome.response 500 [])).response.status = 500
    ∧ ¬ (handleDirectMessage emptyStore 0 "u1" "hello"
        (fun _ => GroqOutcome.response 500 [])).response.status = 200
    ∧ (handleDirectMessage emptyStore 0 "u1" "hello"
        (fun _ => GroqOutcome.response 500 [])).response.body
      = ResponseBody.errorBody "groq API error" := by
  refine ⟨?_, ?_, ?_⟩ <;> decide

/-- C1 (amended): when the completion call fails (transport error,
non-200 status, or zero choices — the last three conjuncts show each of
these makes `callGroqAPI` fail), the webhook message path substitutes the
fixed apology with confidence 0 and answers 200 (no HTTP error for that
failure), while the direct-message POST surfaces the failure as HTTP 500
with the error in the body. -/
theorem c1_completion_failure_handling
    (agentID : String) (store : Store) (now : Nat) (msgFrom msgContent : String)
    (groq : String → GroqOutcome)
    (hne : msgFrom ≠ agentID)
    (hfail : ∀ p, ∃ e, callGroqAPI (groq p) = .error e) :
    ((handleIncomingMessage agentID store now msgFrom msgContent groq
          (fun _ _ => .ok ())).response.status = 200
      ∧ (handleIncomingMessage agentID store now msgFrom msgContent groq
          (fun _ _ => .ok ())).sent = [(msgFrom, fallbackReply.reply)]
      ∧ fallbackReply.confidence = 0)
    ∧ (∀ u m, u ≠ "" → m ≠ "" →
        ∃ e, (handleDirectMessage store now u m groq).response = ⟨500, .errorBody e⟩)
    ∧ (∀ msg, ∃ e, callGroqAPI (.netError msg) = .error e)
    ∧ (∀ st ch, st ≠ 200 → ∃ e, callGroqAPI (.response st ch) = .error e)
    ∧ (∃ e, callGroqAPI (.response 200 []) = .error e) := by
  obtain ⟨e, he⟩ := hfail
    (buildContextPrompt (some (updatedContext store now msgFrom msgContent)) msgContent)
  have hmain := handleIncomingMessage_groq_fail agentID store now msgFrom msgContent
    groq hne e he
  refine ⟨⟨?_, ?_, rfl⟩, ?_, ?_, ?_, ?_⟩
  · rw [hmain]
  · rw [hmain]
  · intro u m hu hm
    obtain ⟨e2, he2⟩ := hfail (buildContextPrompt (some (updatedContext store now u m)) m)
    exact ⟨e2, handleDirectMessage_groq_fail store now u m groq hu hm e2 he2⟩
  · intro msg
    exact ⟨msg, rfl⟩
  · intro st ch hst
    refine ⟨"groq API error", ?_⟩
    simp [callGroqAPI, hst]
  · exact ⟨"empty response from Groq", rfl⟩

/-- C1 (witness): concrete instance of the amended theorem — a failing
completion call on the webhook path yields a 200 response and the apology
sent to the user. -/
theorem c1_witness :
    (handleIncomingMessage "ai-agent-001" emptyStore 0 "user1" "hi there"
        (fun _ => GroqOutcome.netError "boom") (fun _ _ => .ok ())).response.status = 200
    ∧ (handleIncomingMessage "ai-agent-001" emptyStore 0 "user1" "hi there"
        (fun _ => GroqOutcome.netError "boom") (fun _ _ => .ok ())).sent
      = [("user1", fallbackReply.reply)] := by
  refine ⟨?_, ?_⟩
  · exact (c1_completion_failure_handling "ai-agent-001" emptyStore 0 "user1" "hi there"
      (fun _ => .netError "boom") (by decide) (fun p => ⟨"boom", rfl⟩)).1.1
  · exact (c1_completion_failure_handling "ai-agent-001" emptyStore 0 "user1" "hi there"
      (fun _ => .netError "boom") (by decide) (fun p => ⟨"boom", rfl⟩)).1.2.1

/-- C2 (counterexample): the claim says a single `extractTopics` call
never repeats a tag.  On `"code python"`, both keywords map to
`"programming"` and the code appends without any in-call check, so the
output is `["programming", "programming"]`. -/
theorem c2_counterexample :
    extractTopics "code python" = ["programming", "programming"]
    ∧ ¬ (extractTopics "code python").Nodup := by
  constructor <;> decide

/-- C2 (amended): `extractTopics` returns, in the keyword table's order,
the tag of every keyword occurring in the lowercased message — one
occurrence per matching keyword, so a tag mapped by several matching
keywords appears several times; deduplication only happens later in the
store update. -/
theorem c2_topics_per_matching_keyword (m : String) :
    extractTopics m
      = (keywordTable.filter (fun kv => goContains (toLowerGo m) kv.1)).map Prod.snd := by
  have aux : ∀ (l : List (String × String)) (acc : List String),
      l.foldl (fun topics kv =>
          if goContains (toLowerGo m) kv.1 then topics ++ [kv.2] else topics) acc
        = acc ++ (l.filter (fun kv => goContains (toLowerGo m) kv.1)).map Prod.snd := by
    intro l
    induction l with
    | nil => simp
    | cons kv l ih =>
      intro acc
      by_cases h : goContains (toLowerGo m) kv.1 = true
        <;> simp [h, ih, List.filter_cons, List.append_assoc]
  simp only [extractTopics]
  rw [aux keywordTable []]
  simp

/-- C3: for a previously unseen user, the first store update creates a
context with `messageCount = 1`, and a second update yields
`messageCount = 2` and a topics list equal to the first-seen-order
deduplicated union of the topics extracted from both messages. -/
theorem c3_first_two_updates (store : Store) (n1 n2 : Nat) (u m1 m2 : String)
    (h : store u = none) :
    ∃ c1 c2,
      updateConversationContext store n1 u m1 u = some c1
      ∧ updateConversationContext (updateConversationContext store n1 u m1) n2 u m2 u
          = some c2
      ∧ c1.messageCount = 1
      ∧ c2.messageCount = 2
      ∧ c2.topics = firstSeenDedup (extractTopics m1 ++ extractTopics m2) := by
  refine ⟨updatedContext store n1 u m1,
    updatedContext (updateConversationContext store n1 u m1) n2 u m2,
    update_apply_self _ _ _ _, update_apply_self _ _ _ _, ?_, ?_, ?_⟩
  · rw [updatedContext_messageCount, h]
  · rw [updatedContext_messageCount, update_apply_self]
    show (updatedContext store n1 u m1).messageCount + 1 = 2
    rw [updatedContext_messageCount, h]
  · rw [updatedContext_topics, update_apply_self]
    show addTopics (updatedContext store n1 u m1).topics (extractTopics m2) = _
    rw [updatedContext_topics, h]
    show addTopics (addTopics [] (extractTopics m1)) (extractTopics m2) = _
    rw [← addTopics_append, addTopics_nil_eq_firstSeenDedup]

/-- C3 (witness): concrete run — user `"alice"`, messages `"code"` then
`"help me"`. -/
theorem c3_witness :
    emptyStore "alice" = none
    ∧ (∃ c1 c2,
        updateConversationContext emptyStore 0 "alice" "code" "alice" = some c1
        ∧ updateConversationContext
            (updateConversationContext emptyStore 0 "alice" "code") 1 "alice" "help me"
            "alice" = some c2
        ∧ c1.messageCount = 1
        ∧ c2.messageCount = 2
        ∧ c2.topics = firstSeenDedup (extractTopics "code" ++ extractTopics "help me")) :=
  ⟨rfl, c3_first_two_updates emptyStore 0 1 "alice" "code" "help me" rfl⟩

/-- C4: intent classification applies its rules in fixed priority order
on the lowercased message — `help`/`assist` beat `?`, which beats
`thank`, which beats `hello`/`hi`, with `general` as default — and the
returned label is always exactly one of the five. -/
theorem c4_intent_priority (m : String) :
    (goContains (toLowerGo m) "help" = true ∨ goContains (toLowerGo m) "assist" = true →
      extractIntent m = "help_request")
    ∧ (goContains (toLowerGo m) "help" = false → goContains (toLowerGo m) "assist" = false →
        goContains (toLowerGo m) "?" = true → extractIntent m = "question")
    ∧ (goContains (toLowerGo m) "help" = false → goContains (toLowerGo m) "assist" = false →
        goContains (toLowerGo m) "?" = false → goContains (toLowerGo m) "thank" = true →
        extractIntent m = "gratitude")
    ∧ (goContains (toLowerGo m) "help" = false → goContains (toLowerGo m) "assist" = false →
        goContains (toLowerGo m) "?" = false → goContains (toLowerGo m) "thank" = false →
        (goContains (toLowerGo m) "hello" = true ∨ goContains (toLowerGo m) "hi" = true) →
        extractIntent m = "greeting")
    ∧ (goContains (toLowerGo m) "help" = false → goContains (toLowerGo m) "assist" = false →
        goContains (toLowerGo m) "?" = false → goContains (toLowerGo m) "thank" = false →
        goContains (toLowerGo m) "hello" = false → goContains (toLowerGo m) "hi" = false →
        extractIntent m = "general")
    ∧ (extractIntent m = "help_request" ∨ extractIntent m = "question"
        ∨ extractIntent m = "gratitude" ∨ extractIntent m = "greeting"
        ∨ extractIntent m = "general") := by
  refine ⟨?_, ?_, ?_, ?_, ?_, ?_⟩
  · rintro (h | h) <;> simp [extractIntent, h]
  · intro h1 h2 h3
    simp [extractIntent, h1, h2, h3]
  · intro h1 h2 h3 h4
    simp [extractIntent, h1, h2, h3, h4]
  · rintro h1 h2 h3 h4 (h5 | h5) <;> simp [extractIntent, h1, h2, h3, h4, h5]
  · intro h1 h2 h3 h4 h5 h6
    simp [extractIntent, h1, h2, h3, h4, h5, h6]
  · simp only [extractIntent]
    split
    · exact Or.inl rfl
    · split
      · exact Or.inr (Or.inl rfl)
      · split
        · exact Or.inr (Or.inr (Or.inl rfl))
        · split
          · exact Or.inr (Or.inr (Or.inr (Or.inl rfl)))
          · exact Or.inr (Or.inr (Or.inr (Or.inr rfl)))

/-- C4 (witness): `"can you help me?"` contains both `"help"` and `"?"`
and is classified `help_request`. -/
theorem c4_witness :
    goContains (toLowerGo "can you help me?") "help" = true
    ∧ goContains (toLowerGo "can you help me?") "?" = true
    ∧ extractIntent "can you help me?" = "help_request" :=
  ⟨by decide, by decide,
    (c4_intent_priority "can you help me?").1 (Or.inl (by decide))⟩

/-- C5: when a context with positive `messageCount` is present, the built
prompt contains the turn-number line with that count and — if topics are
stored — the comma-joined topic list; with no context or a zero count,
the prompt is exactly the fixed preamble plus instruction plus message,
with no turn-number line. -/
theorem c5_prompt_contents (c : ConversationContext) (m : String) :
    (0 < c.messageCount →
      goContains (buildContextPrompt (some c) m)
        ("This is message #" ++ toString c.messageCount ++ " in the conversation. ")
        = true)
    ∧ (0 < c.messageCount → 0 < c.topics.length →
      goContains (buildContextPrompt (some c) m)
        ("Previous topics discussed: " ++ joinComma c.topics ++ ". ") = true)
    ∧ (c.messageCount = 0 → buildContextPrompt (some c) m = basePrompt ++ tailPrompt m)
    ∧ buildContextPrompt none m = basePrompt ++ tailPrompt m := by
  refine ⟨fun h => contains_turn_line c m h,
    fun h ht => contains_topic_line c m h ht, fun h0 => ?_, rfl⟩
  simp [buildContextPrompt, h0]

/-- C5 (witness): with `messageCount = 3` and topics
`["programming", "support"]` the prompt contains `"message #3"` and
`"programming, support"`. -/
theorem c5_witness :
    goContains (buildContextPrompt
        (some ⟨"u", "x", 3, ["programming", "support"], 0⟩) "hey")
        ("This is message #" ++ toString (3 : Nat) ++ " in the conversation. ") = true
    ∧ goContains (buildContextPrompt
        (some ⟨"u", "x", 3, ["programming", "support"], 0⟩) "hey")
        ("Previous topics discussed: "
          ++ joinComma ["programming", "support"] ++ ". ") = true
    ∧ goContains (buildContextPrompt
        (some ⟨"u", "x", 3, ["programming", "support"], 0⟩) "hey") "message #3" = true
    ∧ goContains (buildContextPrompt
        (some ⟨"u", "x", 3, ["programming", "support"], 0⟩) "hey")
        "programming, support" = true := by
  refine ⟨?_, ?_, by decide, by decide⟩
  · exact (c5_prompt_contents ⟨"u", "x", 3, ["programming", "support"], 0⟩ "hey").1
      (by decide)
  · exact (c5_prompt_contents ⟨"u", "x", 3, ["programming", "support"], 0⟩ "hey").2.1
      (by decide) (by decide)

/-- C6: on both message-handling paths the prompt is built from the
context state after the store update for the current message — the single
prompt sent to the completion API is built from the updated context,
whose count is the old count plus one, whose topics already include every
topic extracted from the current message, and whose turn-number line
reports that incremented count. -/
theorem c6_prompt_from_post_update_state (store : Store) (now : Nat)
    (agentID u m : String) (groq : String → GroqOutcome)
    (send : String → String → Except String Unit)
    (hu : u ≠ "") (hm : m ≠ "") (hagent : u ≠ agentID) :
    ∃ c, updateConversationContext store now u m u = some c
      ∧ (handleDirectMessage store now u m groq).prompts
          = [buildContextPrompt (some c) m]
      ∧ (handleIncomingMessage agentID store now u m groq send).prompts
          = [buildContextPrompt (some c) m]
      ∧ c.messageCount
          = (match store u with | some c0 => c0.messageCount | none => 0) + 1
      ∧ (∀ t, t ∈ extractTopics m → t ∈ c.topics)
      ∧ goContains (buildContextPrompt (some c) m)
          ("This is message #" ++ toString c.messageCount
            ++ " in the conversation. ") = true := by
  refine ⟨updatedContext store now u m, update_apply_self _ _ _ _,
    handleDirectMessage_prompts store now u m groq hu hm,
    handleIncomingMessage_prompts agentID store now u m groq send hagent,
    updatedContext_messageCount store now u m, ?_, ?_⟩
  · intro t ht
    rw [updatedContext_topics]
    exact mem_addTopics_of_mem_new t _ _ ht
  · apply contains_turn_line
    rw [updatedContext_messageCount]
    exact Nat.succ_pos _

/-- C6 (witness): concrete run for user `"bob"`, message `"hi"`, on the
empty store. -/
theorem c6_witness :
    ∃ c, updateConversationContext emptyStore 7 "bob" "hi" "bob" = some c
      ∧ (handleDirectMessage emptyStore 7 "bob" "hi"
          (fun _ => GroqOutcome.netError "x")).prompts
          = [buildContextPrompt (some c) "hi"]
      ∧ (handleIncomingMessage "agent-1" emptyStore 7 "bob" "hi"
          (fun _ => GroqOutcome.netError "x") (fun _ _ => .ok ())).prompts
          = [buildContextPrompt (some c) "hi"]
      ∧ c.messageCount
          = (match emptyStore "bob" with | some c0 => c0.messageCount | none => 0) + 1
      ∧ (∀ t, t ∈ extractTopics "hi" → t ∈ c.topics)
      ∧ goContains (buildContextPrompt (some c) "hi")
          ("This is message #" ++ toString c.messageCount
            ++ " in the conversation. ") = true :=
  c6_prompt_from_post_update_state emptyStore 7 "agent-1" "bob" "hi"
    (fun _ => GroqOutcome.netError "x") (fun _ _ => .ok ())
    (by decide) (by decide) (by decide)

/-- C7: in every reachable store the stored topics list has no
duplicates, and every store update only extends an existing context's
topics list at its end (the old list is a prefix of the new one), so
first-appearance insertion order is preserved. -/
theorem c7_topics_invariant :
    (∀ s, Reachable s → ∀ u c, s u = some c → c.topics.Nodup)
    ∧ (∀ (s : Store) (now : Nat) (u m v : String) (c c' : ConversationContext),
        s v = some c → updateConversationContext s now u m v = some c' →
        c.topics <+: c'.topics) := by
  constructor
  · exact fun s hs => nodup_topics_of_reachable s hs
  · intro s now u m v c c' hc hc'
    by_cases hv : v = u
    · subst hv
      rw [update_apply_self] at hc'
      obtain rfl := (Option.some.inj hc').symm
      rw [updatedContext_topics, hc]
      exact addTopics_prefix_of c.topics (extractTopics m)
    · rw [update_apply_ne s now u m v hv, hc] at hc'
      obtain rfl := Option.some.inj hc'
      exact ⟨[], List.append_nil _⟩

/-- C7 (witness): after updating the empty store for `"a"` with
`"code"`, the stored topics are duplicate-free, and a further update with
`"help me"` extends them on the right. -/
theorem c7_witness :
    (updatedContext emptyStore 0 "a" "code").topics.Nodup
    ∧ (updatedContext emptyStore 0 "a" "code").topics
        <+: (updatedContext (updateConversationContext emptyStore 0 "a" "code") 1 "a"
              "help me").topics := by
  constructor
  · exact c7_topics_invariant.1 (updateConversationContext emptyStore 0 "a" "code")
      (Reachable.step emptyStore 0 "a" "code" Reachable.empty) "a"
      (updatedContext emptyStore 0 "a" "code") (update_apply_self _ _ _ _)
  · exact c7_topics_invariant.2 (updateConversationContext emptyStore 0 "a" "code")
      1 "a" "help me" "a" (updatedContext emptyStore 0 "a" "code")
      (updatedContext (updateConversationContext emptyStore 0 "a" "code") 1 "a" "help me")
      (update_apply_self _ _ _ _) (update_apply_self _ _ _ _)

/-- C8: entity extraction lowercases, splits on whitespace, and keeps the
last token of each kind — the `mention` entry is the last token starting
with `"@"` and the `hashtag` entry the last token starting with `"#"`; on
`"hey @john check #x and @mary"` this gives `@mary` and `#x`. -/
theorem c8_entities_last_wins (m : String) :
    (extractEntities m).mention
        = lastMatching (goHasPrefix "@") (goFields (toLowerGo m))
    ∧ (extractEntities m).hashtag
        = lastMatching (goHasPrefix "#") (goFields (toLowerGo m))
    ∧ extractEntities "hey @john check #x and @mary"
        = { mention := some "@mary", hashtag := some "#x" } := by
  refine ⟨?_, ?_, by decide⟩
  · unfold extractEntities
    rw [mention_foldl_entityStep]
    cases lastMatching (goHasPrefix "@") (goFields (toLowerGo m)) <;> rfl
  · unfold extractEntities
    rw [hashtag_foldl_entityStep]
    cases lastMatching (goHasPrefix "#") (goFields (toLowerGo m)) <;> rfl

/-- C9: a webhook request whose `Authorization` header differs from the
expected bearer secret is answered 401, and an authorized request whose
body fails to parse is answered 400; in both cases the handler returns
the store unchanged, sends nothing and calls no completion. -/
theorem c9_webhook_rejections (telexAPIKey agentID : String) (store : Store)
    (now : Nat) (req : WebhookRequest) (groq : String → GroqOutcome)
    (send : String → String → Except String Unit) :
    (req.authHeader ≠ "Bearer " ++ telexAPIKey →
      handleTelexWebhook telexAPIKey agentID store now req groq send
        = { store := store, prompts := [], sent := []
            response := ⟨401, .telex "error" "Unauthorized"⟩ })
    ∧ (req.authHeader = "Bearer " ++ telexAPIKey → req.body = none →
      handleTelexWebhook telexAPIKey agentID store now req groq send
        = { store := store, prompts := [], sent := []
            response := ⟨400, .telex "error" "Invalid payload"⟩ }) := by
  constructor
  · intro h
    simp [handleTelexWebhook, h]
  · intro h hb
    simp [handleTelexWebhook, h, hb]

/-- C9 (witness): concrete rejections — a wrong bearer token gets 401 and
an unparsable body under the right token gets 400, both leaving the empty
store as it was. -/
theorem c9_witness :
    (("wrong" : String) ≠ "Bearer " ++ "k"
      ∧ handleTelexWebhook "k" "agent-1" emptyStore 0 ⟨"wrong", none⟩
          (fun _ => GroqOutcome.netError "x") (fun _ _ => .ok ())
        = { store := emptyStore, prompts := [], sent := []
            response := ⟨401, .telex "error" "Unauthorized"⟩ })
    ∧ (("Bearer k" : String) = "Bearer " ++ "k"
      ∧ handleTelexWebhook "k" "agent-1" emptyStore 0 ⟨"Bearer k", none⟩
          (fun _ => GroqOutcome.netError "x") (fun _ _ => .ok ())
        = { store := emptyStore, prompts := [], sent := []
            response := ⟨400, .telex "error" "Invalid payload"⟩ }) := by
  refine ⟨⟨by decide, ?_⟩, ⟨by decide, ?_⟩⟩
  · exact (c9_webhook_rejections "k" "agent-1" emptyStore 0 ⟨"wrong", none⟩
      (fun _ => GroqOutcome.netError "x") (fun _ _ => .ok ())).1 (by decide)
  · exact (c9_webhook_rejections "k" "agent-1" emptyStore 0 ⟨"Bearer k", none⟩
      (fun _ => GroqOutcome.netError "x") (fun _ _ => .ok ())).2 (by decide) rfl

/-- C10: a store update for user `u` is frame-preserving — every other
user's entry is returned unchanged — and, provided `u`'s stored context
(if any) carried `userId = u`, the updated entry still carries
`userId = u`. -/
theorem c10_update_frame (s : Store) (now : Nat) (u m v : String) :
    (v ≠ u → updateConversationContext s now u m v = s v)
    ∧ ((∀ c, s u = some c → c.userID = u) →
      ∀ c', updateConversationContext s now u m u = some c' → c'.userID = u) := by
  constructor
  · exact update_apply_ne s now u m v
  · intro hinv c' hc'
    rw [update_apply_self] at hc'
    obtain rfl := (Option.some.inj hc').symm
    rw [updatedContext_userID]
    cases hs : s u with
    | none => rfl
    | some c0 => exact hinv c0 hs

/-- C10 (witness): updating `"a"` on the empty store leaves `"b"`'s
(absent) entry untouched and writes a context whose `userId` is `"a"`. -/
theorem c10_witness :
    updateConversationContext emptyStore 0 "a" "code" "b" = emptyStore "b"
    ∧ (updatedContext emptyStore 0 "a" "code").userID = "a" := by
  constructor
  · exact (c10_update_frame emptyStore 0 "a" "code" "b").1 (by decide)
  · refine (c10_update_frame emptyStore 0 "a" "code" "b").2 ?_
      (updatedContext emptyStore 0 "a" "code") (update_apply_self _ _ _ _)
    intro c hc
    simp [emptyStore] at hc

end StandupBot
